import Mathlib

/-
Verification development for the video-delay-control script
(src/csl236/assets/js/video-delay-control.js).

The script is a single IIFE exposing a class VideoDelayController plus an
init/auto-init surface.  The shallow embedding below translates its data
model and operations into pure Lean functions:

  * DOM / localStorage / timer side effects become an explicit `Effect`
    trace emitted by each operation;
  * the mutable instance fields (`attempts`, `isDisplayed`, `videoInstance`,
    `timeUpdateHandler`, `intervalId`) become the `CState` record (the two
    handler/interval fields are modelled as presence booleans, since the
    code only ever tests them for null-ness);
  * the external smartplayer instance is modelled by the capability record
    `VideoInstance` (which of the duck-typed methods exist, whether calling
    them throws, the nested `video` element and its `currentTime`);
  * a JS exception escaping a function is an `Except.error ()`;
  * playback times and the threshold are rationals (JS numbers, NaN aside).
-/

namespace VideoDelay

/-- Configuration object; fields and defaults mirror DEFAULT_CONFIG in the
source.  Optional string fields (`storageKey`, `scrollToId`) default to
`null` in the source, modelled as `Option.none`. -/
structure Config where
  secondsToDisplay : Rat
  delayedContentSelector : String
  delayClass : String
  showClass : String
  storageKey : Option String
  scrollToId : Option String
  maxAttempts : Nat
  retryDelay : Nat
  debug : Bool
deriving DecidableEq

/-- The DEFAULT_CONFIG literal of the source. -/
def DEFAULT_CONFIG : Config :=
  { secondsToDisplay := 1729
    delayedContentSelector := "#delayed-content"
    delayClass := "atomicat-delay"
    showClass := "show"
    storageKey := none
    scrollToId := none
    maxAttempts := 20
    retryDelay := 1000
    debug := false }

/-- The nested `video` element of a smartplayer instance: its reported
`currentTime` (none = the property is undefined) and whether it exposes a
callable `removeEventListener` (and whether that call would throw). -/
structure VideoElem where
  currentTime : Option Rat
  hasRemoveEventListener : Bool
  removeThrows : Bool
deriving DecidableEq

/-- Capability shape of the external smartplayer instance, as duck-typed by
the source: `typeof inst.on`, `typeof inst.off`, `typeof
inst.removeEventListener` checks, the nested `inst.video` element, and the
`smartAutoPlay` flag read by the timeupdate handler. The `*Throws` fields
say whether invoking the corresponding method raises. -/
structure VideoInstance where
  hasOn : Bool
  hasOff : Bool
  offThrows : Bool
  hasRemoveEventListener : Bool
  removeThrows : Bool
  video : Option VideoElem
  smartAutoPlay : Bool
deriving DecidableEq

/-- Mutable controller state (the instance fields set in the constructor).
`hasHandler` / `hasInterval` model non-nullness of `timeUpdateHandler` /
`intervalId`. -/
structure CState where
  attempts : Nat
  isDisplayed : Bool
  videoInstance : Option VideoInstance
  hasHandler : Bool
  hasInterval : Bool
deriving DecidableEq

/-- State right after the field initialisers of the constructor run. -/
def freshState : CState :=
  { attempts := 0, isDisplayed := false, videoInstance := none
    hasHandler := false, hasInterval := false }

/-- The detachment strategies probed by the duck-typed if/else-if chain in
revealContent and destroy: `inst.off`, `inst.removeEventListener`,
`inst.video.removeEventListener`. -/
inductive DetachShape
  | off
  | remove
  | videoRemove
deriving DecidableEq

/-- Which detachment strategy the if/else-if chain invokes: the first one
whose `typeof` test passes (source lines 132-138 and 250-256).  `none` when
no capability is present. -/
def detachInvoked (inst : VideoInstance) : Option DetachShape :=
  if inst.hasOff then some DetachShape.off
  else if inst.hasRemoveEventListener then some DetachShape.remove
  else match inst.video with
    | some v => if v.hasRemoveEventListener then some DetachShape.videoRemove else none
    | none => none

/-- Whether invoking a given strategy on this instance raises. -/
def shapeThrows (inst : VideoInstance) : DetachShape → Bool
  | DetachShape.off => inst.offThrows
  | DetachShape.remove => inst.removeThrows
  | DetachShape.videoRemove =>
      match inst.video with
      | some v => v.removeThrows
      | none => false

/-- Run of the detachment block: the list of strategies actually invoked
(the chain invokes at most the first available one) and whether that
invocation threw — the throw is caught by the try/catch wrapping the chain,
so it never propagates. -/
def detachRun (inst : VideoInstance) : List DetachShape × Bool :=
  match detachInvoked inst with
  | some sh => ([sh], shapeThrows inst sh)
  | none => ([], false)

/-- Side effects emitted by the embedding.  Each constructor corresponds to
one observable interaction of the source with DOM / storage / timers /
player. -/
inductive Effect
  | removeClassAll (cls : String)
  | addClass (sel cls : String)
  | setAria (sel value : String)
  | schedScroll (ms : Nat) (targetId : String)
  | storageWrite (key value : String)
  | scrollTo (id : String)
  | clearSampler
  | detachTry (shape : DetachShape)
  | schedRetry (ms : Nat)
  | attachOn
  | startSampler
  | schedFastReveal (ms : Nat)
deriving DecidableEq

/-- The ambient document: whether querySelector finds the configured
selector, and whether getElementById finds a given id. -/
structure Dom where
  hasSelector : String → Bool
  hasId : String → Bool

/-- JS `String.prototype.replace('#','')`: removes only the first
occurrence of the '#' character. -/
def stripFirstHash : List Char → List Char
  | [] => []
  | c :: cs => if c = '#' then cs else c :: stripFirstHash cs

/-- The detachment block as an effect list (shared verbatim between
revealContent and destroy in the source). -/
def detachEffects (inst : VideoInstance) : List Effect :=
  match detachInvoked inst with
  | some sh => [Effect.detachTry sh]
  | none => []

/-- The body of the try block of revealContent, in source order:
remove the delay class everywhere; add show class / aria to the container
if present; schedule the fixed 500ms scroll to the literal id "kits";
persist "true" when a (truthy) storageKey is set; secondary scroll when a
(truthy) scrollToId differs from the selector with its first '#' removed
and the element exists; clear the sampler interval; detach the listener
when both instance and handler are present. -/
def revealSideEffects (cfg : Config) (dom : Dom) (s : CState) : List Effect :=
  [Effect.removeClassAll cfg.delayClass]
  ++ (if dom.hasSelector cfg.delayedContentSelector then
        [Effect.addClass cfg.delayedContentSelector cfg.showClass,
         Effect.setAria cfg.delayedContentSelector "false"]
      else [])
  ++ [Effect.schedScroll 500 "kits"]
  ++ (match cfg.storageKey with
      | some k => if k ≠ "" then [Effect.storageWrite k "true"] else []
      | none => [])
  ++ (match cfg.scrollToId with
      | some id =>
          if id ≠ "" ∧ id ≠ String.mk (stripFirstHash cfg.delayedContentSelector.data)
             ∧ dom.hasId id then [Effect.scrollTo id] else []
      | none => [])
  ++ (if s.hasInterval then [Effect.clearSampler] else [])
  ++ (match s.videoInstance with
      | some inst => if s.hasHandler then detachEffects inst else []
      | none => [])

/-- revealContent (fault-free run): no-op when the `isDisplayed` latch is
set; otherwise sets the latch, emits the side effects, and clears the
interval handle. -/
def revealContent (cfg : Config) (dom : Dom) (s : CState) : CState × List Effect :=
  if s.isDisplayed then (s, [])
  else ({ s with isDisplayed := true, hasInterval := false },
        revealSideEffects cfg dom s)

/-- Micro-trace of revealContent recording statement order: the latch write
(`this.isDisplayed = true`) happens before any side effect. -/
inductive MicroAction
  | setLatch
  | sideEffect (e : Effect)
deriving DecidableEq

/-- Statement-ordered trace of one revealContent call. -/
def revealTrace (cfg : Config) (dom : Dom) (s : CState) : List MicroAction :=
  if s.isDisplayed then []
  else MicroAction.setLatch :: (revealSideEffects cfg dom s).map MicroAction.sideEffect

/-- The callback scheduled 500ms after reveal: getElementById('kits') and
scroll it into view, silently skipping when absent. -/
def kitsScrollRun (dom : Dom) : List Effect :=
  if dom.hasId "kits" then [Effect.scrollTo "kits"] else []

/-- The immediate post-discovery check of startWatching (source line 224):
`inst.video && inst.video.currentTime >= secondsToDisplay` — note JS
`undefined >= n` is false, and there is no autoplay guard here. -/
def immediateCheck (cfg : Config) (inst : VideoInstance) : Bool :=
  match inst.video with
  | some v =>
      match v.currentTime with
      | some t => decide (cfg.secondsToDisplay ≤ t)
      | none => false
  | none => false

/-- startWatching.  `inst?` is the result of getVideoInstance() (none when
smartplayer is undefined / has no instances).  Mirrors the source: latch
guard; on a missing instance either fail-open reveal (attempts ≥
maxAttempts) or increment attempts and schedule a retry; on a found
instance install the handler, attach via `inst.on` — which is called
unguarded, so an instance without a callable `on` raises a TypeError that
escapes (`Except.error`) — start the 1s sampler, and run the immediate
threshold check. -/
def startWatchingE (cfg : Config) (dom : Dom) (s : CState)
    (inst? : Option VideoInstance) : Except Unit (CState × List Effect) :=
  if s.isDisplayed then Except.ok (s, [])
  else
    match inst? with
    | none =>
        if cfg.maxAttempts ≤ s.attempts then
          Except.ok (revealContent cfg dom { s with videoInstance := none })
        else
          Except.ok ({ s with videoInstance := none, attempts := s.attempts + 1 },
                     [Effect.schedRetry cfg.retryDelay])
    | some inst =>
        if inst.hasOn then
          if immediateCheck cfg inst then
            Except.ok
              ((revealContent cfg dom
                  { s with videoInstance := some inst, hasHandler := true,
                           hasInterval := true }).1,
               [Effect.attachOn, Effect.startSampler]
                 ++ (revealContent cfg dom
                      { s with videoInstance := some inst, hasHandler := true,
                               hasInterval := true }).2)
          else
            Except.ok ({ s with videoInstance := some inst, hasHandler := true,
                                hasInterval := true },
                       [Effect.attachOn, Effect.startSampler])
        else Except.error ()

/-- The timeupdate handler closure (source lines 194-207): the latch guard
comes first (line 195); `currentTime = this.videoInstance?.video?.currentTime
|| 0` (line 197) is null-safe, but line 200 reads
`this.videoInstance.smartAutoPlay` with no optional chaining — when the
handler fires with the latch unset after destroy() nulled `videoInstance`
(reachable whenever detachment failed silently), that read raises an
uncaught TypeError, modelled as `Except.error ()`.  Otherwise: skip when
`smartAutoPlay` and the time is exactly 0; reveal when the time reaches
the threshold.  `t?` is the value the property read yields at this
invocation (none when `video` or `currentTime` is undefined). -/
def timeUpdateHandler (cfg : Config) (dom : Dom) (s : CState) (t? : Option Rat) :
    Except Unit (CState × List Effect) :=
  if s.isDisplayed then Except.ok (s, [])
  else
    match s.videoInstance with
    | none => Except.error ()
    | some inst =>
        if inst.smartAutoPlay ∧ t?.getD 0 = 0 then Except.ok (s, [])
        else if cfg.secondsToDisplay ≤ t?.getD 0 then Except.ok (revealContent cfg dom s)
        else Except.ok (s, [])

/-- Whether a timeupdate sample makes the handler call revealContent
(ignoring the latch): not an (autoplay ∧ time 0) sample, and the
reported-or-zero time reaches the threshold. -/
def handlerFires (cfg : Config) (inst : VideoInstance) (t? : Option Rat) : Bool :=
  (!(inst.smartAutoPlay && decide (t?.getD 0 = 0)))
    && decide (cfg.secondsToDisplay ≤ t?.getD 0)

/-- destroy(): clear the interval, run the detachment chain when both
instance and handler are present (inside try/catch), then null out
`videoInstance` and `timeUpdateHandler`.  `isDisplayed` and `attempts` are
not touched. -/
def destroy (s : CState) : CState × List Effect :=
  let e1 := if s.hasInterval then [Effect.clearSampler] else []
  let e2 := match s.videoInstance with
            | some inst => if s.hasHandler then detachEffects inst else []
            | none => []
  ({ s with hasInterval := false, videoInstance := none, hasHandler := false },
   e1 ++ e2)

/-- Entry events of the controller: a timeupdate callback invocation (with
the time the property read yields), a startWatching invocation (with the
instance getVideoInstance() finds), a forceReveal call, the scheduled
fast-path reveal timeout firing, and a destroy call. -/
inductive Event
  | timeUpdate (t : Option Rat)
  | probe (inst : Option VideoInstance)
  | forceReveal
  | fastReveal
  | teardown

/-- One event dispatched against the controller. -/
def step (cfg : Config) (dom : Dom) (s : CState) :
    Event → Except Unit (CState × List Effect)
  | Event.timeUpdate t => timeUpdateHandler cfg dom s t
  | Event.probe i => startWatchingE cfg dom s i
  | Event.forceReveal => Except.ok (revealContent cfg dom s)
  | Event.fastReveal => Except.ok (revealContent cfg dom s)
  | Event.teardown => Except.ok (destroy s)

/-- Run a sequence of events, accumulating the effect trace; an uncaught
exception aborts the run. -/
def run (cfg : Config) (dom : Dom) : CState → List Event → Except Unit (CState × List Effect)
  | s, [] => Except.ok (s, [])
  | s, e :: es =>
      match step cfg dom s e with
      | Except.error u => Except.error u
      | Except.ok (s1, eff1) =>
          match run cfg dom s1 es with
          | Except.error u => Except.error u
          | Except.ok (s2, eff2) => Except.ok (s2, eff1 ++ eff2)

/-- The constructor: initialise fields; when a (truthy) storageKey is set
and localStorage holds the literal "true" for it, schedule revealContent
after the fixed 100ms delay and return — never calling startWatching;
otherwise call startWatching synchronously. -/
def construct (cfg : Config) (storage : String → Option String) (dom : Dom)
    (inst? : Option VideoInstance) : Except Unit (CState × List Effect) :=
  match cfg.storageKey with
  | some k =>
      if k ≠ "" then
        if storage k = some "true" then
          Except.ok (freshState, [Effect.schedFastReveal 100])
        else startWatchingE cfg dom freshState inst?
      else startWatchingE cfg dom freshState inst?
  | none => startWatchingE cfg dom freshState inst?

/-- document.readyState as observed by the script. -/
inductive ReadyState
  | loading
  | interactive
  | complete
deriving DecidableEq

/-- window.initVideoDelayControl: while the document is loading it only
registers a DOMContentLoaded callback (the deferred construction, second
component) and returns undefined to the caller (first component none);
otherwise it constructs the controller now and returns it. -/
def initVideoDelayControl (rs : ReadyState) (cfg : Config)
    (storage : String → Option String) (dom : Dom) (inst? : Option VideoInstance) :
    Option (Except Unit (CState × List Effect)) × Option Config :=
  match rs with
  | ReadyState.loading => (none, some cfg)
  | _ => (some (construct cfg storage dom inst?), none)

/-- autoInit: a (truthy) global VIDEO_DELAY_CONFIG is passed to init
directly (outside any try/catch, so a constructor exception propagates);
otherwise, when a script tag carries the data attribute, JSON.parse and the
init call both run inside try/catch — a parse failure (`parse a = none`) or
a constructor exception is caught and logged. -/
def autoInit (rs : ReadyState) (globalCfg : Option Config) (scriptAttr : Option String)
    (parse : String → Option Config) (storage : String → Option String) (dom : Dom)
    (inst? : Option VideoInstance) : Except Unit Unit :=
  match globalCfg with
  | some c =>
      match initVideoDelayControl rs c storage dom inst? with
      | (some (Except.error u), _) => Except.error u
      | _ => Except.ok ()
  | none =>
      match scriptAttr with
      | some a =>
          match parse a with
          | none => Except.ok ()
          | some c =>
              match initVideoDelayControl rs c storage dom inst? with
              | (some (Except.error _), _) => Except.ok ()
              | _ => Except.ok ()
      | none => Except.ok ()

/-- Apply an effect trace to the storage map (only storageWrite effects
touch it). -/
def applyStorage : List Effect → (String → Option String) → (String → Option String)
  | [], st => st
  | Effect.storageWrite k v :: rest, st =>
      applyStorage rest (fun x => if x = k then some v else st x)
  | _ :: rest, st => applyStorage rest st

/-- Effect classifiers used to count reveal batches / storage writes /
scheduled retries in a trace. -/
def isRevealMarker : Effect → Bool
  | Effect.removeClassAll _ => true
  | _ => false

def isStorageWrite : Effect → Bool
  | Effect.storageWrite _ _ => true
  | _ => false

def isRetry : Effect → Bool
  | Effect.schedRetry _ => true
  | _ => false

/-- The statements inside the try block of revealContent, in source order:
the delay-class removal loop, the show-class/aria block, the setTimeout
scheduling the kits scroll, the localStorage write, the secondary
scrollToId scroll, the clearInterval block, and the listener-detachment
block (the only one wrapped in its own inner try/catch). -/
inductive RevealStep
  | rmDelay
  | showContent
  | schedScroll
  | storeFlag
  | secondScroll
  | clearSampler
  | detachStep
deriving DecidableEq

/-- Source order of the statements in the try block of revealContent. -/
def revealStepOrder : List RevealStep :=
  [RevealStep.rmDelay, RevealStep.showContent, RevealStep.schedScroll,
   RevealStep.storeFlag, RevealStep.secondScroll, RevealStep.clearSampler,
   RevealStep.detachStep]

/-- Execute the statements of the try block under a fault environment
(`faults st = true` means the statement raises when control reaches it).
Returns the statements control reached and the fault, if any, that escaped
the try block to the outer catch.  A fault in the detachment block is
caught by its own inner try/catch, so execution continues past it; a fault
in any other statement escapes the try block and skips the rest. -/
def revealGo : List RevealStep → (RevealStep → Bool) → List RevealStep × Option RevealStep
  | [], _ => ([], none)
  | st :: rest, faults =>
      if faults st then
        if st = RevealStep.detachStep then
          let r := revealGo rest faults
          (st :: r.1, r.2)
        else ([st], some st)
      else
        let r := revealGo rest faults
        (st :: r.1, r.2)

/-- One revealContent call under a fault environment: the latch guard, then
the try block; the outer catch swallows whatever escaped the try block, so
the second component — whether an exception propagates to the caller — is
false by the structure of the source. -/
def revealRun (s : CState) (faults : RevealStep → Bool) : List RevealStep × Bool :=
  if s.isDisplayed then ([], false)
  else ((revealGo revealStepOrder faults).1, false)

/-- A document with no matching elements at all (used to instantiate
theorems at concrete inputs). -/
def noDom : Dom := ⟨fun _ => false, fun _ => false⟩

/-- A nested video element reporting currentTime 0. -/
def autoElem : VideoElem :=
  { currentTime := some 0, hasRemoveEventListener := false, removeThrows := false }

/-- A well-behaved instance in autoplay-pending state whose video reports
currentTime 0. -/
def autoInst : VideoInstance :=
  { hasOn := true, hasOff := false, offThrows := false,
    hasRemoveEventListener := false, removeThrows := false,
    video := some autoElem, smartAutoPlay := true }

/-- A configuration with threshold 0. -/
def zeroCfg : Config := { DEFAULT_CONFIG with secondsToDisplay := 0 }

/-- An instance with no callable `on` method (but otherwise functional). -/
def noOnInst : VideoInstance :=
  { hasOn := false, hasOff := false, offThrows := false,
    hasRemoveEventListener := true, removeThrows := false,
    video := none, smartAutoPlay := false }

/-- An instance whose `off` method exists but throws, while a working
`removeEventListener` is also present. -/
def throwOffInst : VideoInstance :=
  { hasOn := true, hasOff := true, offThrows := true,
    hasRemoveEventListener := true, removeThrows := false,
    video := none, smartAutoPlay := false }

/-- Discovery-loop state with a given attempts counter (no instance, no
handler, no interval, latch unset). -/
def probeState (a : Nat) : CState :=
  { attempts := a, isDisplayed := false, videoInstance := none
    hasHandler := false, hasInterval := false }

/-- A storage write whose value is not the literal "true" (no operation of
the system ever emits one). -/
def isNonTrueWrite : Effect → Bool
  | Effect.storageWrite _ v => decide (v ≠ "true")
  | _ => false

/-- A scheduled scroll that is not the fixed 500ms scroll to id "kits" (no
reveal ever schedules one). -/
def isAlienSched : Effect → Bool
  | Effect.schedScroll ms id => decide (¬(ms = 500 ∧ id = "kits"))
  | _ => false

/-- An immediate scrollIntoView effect. -/
def isScrollEffect : Effect → Bool
  | Effect.scrollTo _ => true
  | _ => false

/-- A subscription-attachment effect. -/
def isAttach : Effect → Bool
  | Effect.attachOn => true
  | _ => false

/-- A configuration whose discovery gives up immediately. -/
def zeroAttemptsCfg : Config := { DEFAULT_CONFIG with maxAttempts := 0 }

/-- A configuration persisting under the key "vdc". -/
def storageCfg : Config := { DEFAULT_CONFIG with storageKey := some "vdc" }

/-- A storage map holding "true" under "vdc". -/
def storeTrue : String → Option String :=
  fun s => if s = "vdc" then some "true" else none

/-- A nested video element reporting currentTime 10. -/
def fastElem : VideoElem :=
  { currentTime := some 10, hasRemoveEventListener := false, removeThrows := false }

/-- A fully functional instance (callable on, not autoplay-pending) whose
video reports 10 seconds. -/
def plainInst : VideoInstance :=
  { hasOn := true, hasOff := false, offThrows := false,
    hasRemoveEventListener := false, removeThrows := false,
    video := some fastElem, smartAutoPlay := false }

/-- A configuration with threshold 5. -/
def fiveCfg : Config := { DEFAULT_CONFIG with secondsToDisplay := 5 }

/-- A controller state that is watching plainInst. -/
def watchState : CState := { freshState with videoInstance := some plainInst }

/-- A mid-life controller state with every handle live. -/
def sampleState : CState :=
  { attempts := 2, isDisplayed := true, videoInstance := some plainInst,
    hasHandler := true, hasInterval := true }

/-- A configuration with a secondary scroll target "target". -/
def scrollCfg : Config := { DEFAULT_CONFIG with scrollToId := some "target" }

/-- A document containing only the element with id "target". -/
def targetDom : Dom := ⟨fun _ => false, fun i => decide (i = "target")⟩

/-- The detachment block contributes no reveal markers to a trace. -/
theorem detachEffects_marker (inst : VideoInstance) :
    (detachEffects inst).countP isRevealMarker = 0 := by
  unfold detachEffects
  cases detachInvoked inst <;> simp [List.countP_cons, isRevealMarker]

/-- The detachment block contributes no storage writes to a trace. -/
theorem detachEffects_storage (inst : VideoInstance) :
    (detachEffects inst).countP isStorageWrite = 0 := by
  unfold detachEffects
  cases detachInvoked inst <;> simp [List.countP_cons, isStorageWrite]

/-- The detachment block contributes no retries to a trace. -/
theorem detachEffects_retry (inst : VideoInstance) :
    (detachEffects inst).countP isRetry = 0 := by
  unfold detachEffects
  cases detachInvoked inst <;> simp [List.countP_cons, isRetry]

/-- Each reveal batch carries exactly one delay-class-removal marker. -/
theorem revealSideEffects_marker_count (cfg : Config) (dom : Dom) (s : CState) :
    (revealSideEffects cfg dom s).countP isRevealMarker = 1 := by
  unfold revealSideEffects
  simp only [List.countP_append]
  repeat' split
  all_goals simp [List.countP_cons, List.countP_nil, isRevealMarker, detachEffects_marker]

/-- Each reveal batch performs at most one storage write. -/
theorem revealSideEffects_storage_le (cfg : Config) (dom : Dom) (s : CState) :
    (revealSideEffects cfg dom s).countP isStorageWrite ≤ 1 := by
  unfold revealSideEffects
  simp only [List.countP_append]
  repeat' split
  all_goals simp [List.countP_cons, List.countP_nil, isStorageWrite, detachEffects_storage]

/-- A reveal batch never schedules a discovery retry. -/
theorem revealSideEffects_retry_count (cfg : Config) (dom : Dom) (s : CState) :
    (revealSideEffects cfg dom s).countP isRetry = 0 := by
  unfold revealSideEffects
  simp only [List.countP_append]
  repeat' split
  all_goals simp [List.countP_cons, List.countP_nil, isRetry, detachEffects_retry]

/-- After any revealContent call the latch is set (it was either already
set, or the call sets it). -/
theorem revealContent_displayed (cfg : Config) (dom : Dom) (s : CState) :
    (revealContent cfg dom s).1.isDisplayed = true ∨ revealContent cfg dom s = (s, []) := by
  unfold revealContent
  split
  · exact Or.inr rfl
  · exact Or.inl rfl

/-- A revealContent call on an unset latch sets it, emits exactly one
reveal batch with at most one storage write and no retry, and clears the
interval handle. -/
theorem revealContent_on_fresh (cfg : Config) (dom : Dom) (s : CState)
    (hd : s.isDisplayed = false) :
    revealContent cfg dom s
      = ({ s with isDisplayed := true, hasInterval := false }, revealSideEffects cfg dom s) := by
  unfold revealContent
  simp [hd]

/-- A revealContent call on a set latch is a complete no-op. -/
theorem revealContent_noop (cfg : Config) (dom : Dom) (s : CState)
    (hd : s.isDisplayed = true) :
    revealContent cfg dom s = (s, []) := by
  unfold revealContent
  simp [hd]

/-- The state part of destroy, in record form. -/
theorem destroy_state (s : CState) :
    (destroy s).1 = { s with hasInterval := false, videoInstance := none, hasHandler := false } := rfl

/-- destroy emits no reveal markers. -/
theorem destroy_marker (s : CState) : (destroy s).2.countP isRevealMarker = 0 := by
  unfold destroy
  simp only [List.countP_append]
  repeat' split
  all_goals simp [List.countP_cons, List.countP_nil, isRevealMarker, detachEffects_marker]

/-- destroy performs no storage writes. -/
theorem destroy_storage (s : CState) : (destroy s).2.countP isStorageWrite = 0 := by
  unfold destroy
  simp only [List.countP_append]
  repeat' split
  all_goals simp [List.countP_cons, List.countP_nil, isStorageWrite, detachEffects_storage]

/-- Latch and count behaviour of one event dispatch: the trace carries one
reveal marker exactly when the latch transitions, storage writes never
exceed reveal markers, and the latch never resets. -/
theorem step_spec (cfg : Config) (dom : Dom) (s : CState) (e : Event) (s1 : CState)
    (eff : List Effect) (h : step cfg dom s e = Except.ok (s1, eff)) :
    eff.countP isRevealMarker
        = (if s.isDisplayed then 0 else if s1.isDisplayed then 1 else 0)
    ∧ eff.countP isStorageWrite ≤ eff.countP isRevealMarker
    ∧ (s.isDisplayed = true → s1.isDisplayed = true) := by
  have hnoop : (s1, eff) = (s, ([] : List Effect)) →
      eff.countP isRevealMarker
          = (if s.isDisplayed then 0 else if s1.isDisplayed then 1 else 0)
      ∧ eff.countP isStorageWrite ≤ eff.countP isRevealMarker
      ∧ (s.isDisplayed = true → s1.isDisplayed = true) := by
    intro hp
    rw [Prod.mk.injEq] at hp
    obtain ⟨h1, h2⟩ := hp
    rw [h1, h2]
    cases hd : s.isDisplayed <;> simp [hd]
  have hrev : ∀ t : CState, t.isDisplayed = s.isDisplayed →
      revealContent cfg dom t = (s1, eff) →
      eff.countP isRevealMarker
          = (if s.isDisplayed then 0 else if s1.isDisplayed then 1 else 0)
      ∧ eff.countP isStorageWrite ≤ eff.countP isRevealMarker
      ∧ (s.isDisplayed = true → s1.isDisplayed = true) := by
    intro t htd hp
    cases hd : t.isDisplayed with
    | false =>
        rw [revealContent_on_fresh cfg dom t hd, Prod.mk.injEq] at hp
        obtain ⟨h1, h2⟩ := hp
        rw [← h1, ← h2, ← htd, hd]
        refine ⟨by simp [revealSideEffects_marker_count], ?_, by simp⟩
        rw [revealSideEffects_marker_count]
        exact revealSideEffects_storage_le cfg dom t
    | true =>
        rw [revealContent_noop cfg dom t hd, Prod.mk.injEq] at hp
        obtain ⟨h1, h2⟩ := hp
        rw [← h1, ← h2, ← htd, hd]
        simp [hd]
  cases e with
  | timeUpdate t =>
      simp only [step] at h
      unfold timeUpdateHandler at h
      split at h
      · rw [Except.ok.injEq] at h
        exact hnoop h.symm
      · rcases hvi : s.videoInstance with _ | inst <;> simp only [hvi] at h
        · exact Except.noConfusion h
        · split at h <;> (try split at h)
          all_goals rw [Except.ok.injEq] at h
          all_goals first
            | exact hnoop h.symm
            | exact hrev s rfl h
  | probe i =>
      simp only [step] at h
      unfold startWatchingE at h
      split at h
      · rw [Except.ok.injEq] at h
        exact hnoop h.symm
      · rename_i hnd
        simp only [Bool.not_eq_true] at hnd
        rcases i with _ | inst <;> simp only at h
        · split at h <;> rw [Except.ok.injEq] at h
          all_goals first
            | exact hrev { s with videoInstance := none } rfl h
            | (rw [Prod.mk.injEq] at h
               obtain ⟨h1, h2⟩ := h
               rw [← h1, ← h2]
               simp [hnd, isRevealMarker, isStorageWrite, List.countP_cons])
        · by_cases hOn : inst.hasOn = true
          case neg =>
            rw [if_neg hOn] at h
            cases h
          rw [if_pos hOn] at h
          split at h
          all_goals rw [Except.ok.injEq, Prod.mk.injEq] at h
          all_goals obtain ⟨h1, h2⟩ := h
          all_goals first
            | (have hfr := revealContent_on_fresh cfg dom
                 { s with videoInstance := some inst, hasHandler := true,
                          hasInterval := true } (by simp [hnd])
               rw [hfr] at h1
               rw [hfr] at h2
               rw [← h1, ← h2, hnd]
               refine ⟨?_, ?_, by simp⟩
               · simp [List.countP_append, List.countP_cons, isRevealMarker,
                       revealSideEffects_marker_count]
               · simp [List.countP_append, List.countP_cons, isRevealMarker,
                       isStorageWrite, revealSideEffects_marker_count]
                 exact revealSideEffects_storage_le cfg dom _)
            | (rw [← h1, ← h2]
               simp [hnd, isRevealMarker, isStorageWrite, List.countP_cons])
  | forceReveal =>
      simp only [step] at h
      rw [Except.ok.injEq] at h
      exact hrev s rfl h
  | fastReveal =>
      simp only [step] at h
      rw [Except.ok.injEq] at h
      exact hrev s rfl h
  | teardown =>
      simp only [step] at h
      rw [Except.ok.injEq] at h
      rw [Prod.mk.injEq] at h
      obtain ⟨h1, h2⟩ := h
      rw [← h1, ← h2]
      refine ⟨?_, ?_, ?_⟩
      · rw [destroy_marker, destroy_state]
        cases hd : s.isDisplayed <;> simp [hd]
      · rw [destroy_marker, destroy_storage]
      · rw [destroy_state]
        intro hd
        simpa using hd

/-- revealContent always leaves the latch set (it sets it, or it was
already set). -/
theorem revealContent_fst_displayed (cfg : Config) (dom : Dom) (s : CState) :
    (revealContent cfg dom s).1.isDisplayed = true := by
  unfold revealContent
  split
  · assumption
  · rfl

/-- Run-level latch/count invariant: the whole trace carries one reveal
marker exactly when the latch transitions during the run, storage writes
never exceed reveal markers, and the latch never resets. -/
theorem run_spec (cfg : Config) (dom : Dom) :
    ∀ (es : List Event) (s s2 : CState) (effs : List Effect),
      run cfg dom s es = Except.ok (s2, effs) →
      effs.countP isRevealMarker
          = (if s.isDisplayed then 0 else if s2.isDisplayed then 1 else 0)
      ∧ effs.countP isStorageWrite ≤ effs.countP isRevealMarker
      ∧ (s.isDisplayed = true → s2.isDisplayed = true) := by
  intro es
  induction es with
  | nil =>
      intro s s2 effs h
      simp only [run] at h
      rw [Except.ok.injEq, Prod.mk.injEq] at h
      obtain ⟨h1, h2⟩ := h
      rw [← h1, ← h2]
      cases hd : s.isDisplayed <;> simp [hd]
  | cons e es ih =>
      intro s s2 effs h
      simp only [run] at h
      cases hstep : step cfg dom s e with
      | error u =>
          simp only [hstep] at h
          exact Except.noConfusion h
      | ok p =>
          obtain ⟨s1, eff1⟩ := p
          simp only [hstep] at h
          cases hrun : run cfg dom s1 es with
          | error u =>
              simp only [hrun] at h
              exact Except.noConfusion h
          | ok q =>
              obtain ⟨s2', eff2⟩ := q
              simp only [hrun, Except.ok.injEq, Prod.mk.injEq] at h
              obtain ⟨h1, h2⟩ := h
              obtain ⟨m1, w1, d1⟩ := step_spec cfg dom s e s1 eff1 hstep
              obtain ⟨m2, w2, d2⟩ := ih s1 s2' eff2 hrun
              rw [← h1, ← h2]
              rw [List.countP_append, List.countP_append]
              refine ⟨?_, Nat.add_le_add w1 w2, fun hd => d2 (d1 hd)⟩
              rw [m1, m2]
              cases hd : s.isDisplayed with
              | true => simp [hd, d1 hd]
              | false =>
                  cases hd1 : s1.isDisplayed with
                  | true => simp [hd, hd1, d2 hd1]
                  | false => simp [hd, hd1]

/-- A forceReveal event anywhere in the run guarantees the final latch is
set. -/
theorem run_force_displayed (cfg : Config) (dom : Dom) :
    ∀ (es : List Event) (s s2 : CState) (effs : List Effect),
      run cfg dom s es = Except.ok (s2, effs) → Event.forceReveal ∈ es →
      s2.isDisplayed = true := by
  intro es
  induction es with
  | nil =>
      intro s s2 effs h hm
      cases hm
  | cons e es ih =>
      intro s s2 effs h hm
      simp only [run] at h
      cases hstep : step cfg dom s e with
      | error u =>
          simp only [hstep] at h
          exact Except.noConfusion h
      | ok p =>
          obtain ⟨s1, eff1⟩ := p
          simp only [hstep] at h
          cases hrun : run cfg dom s1 es with
          | error u =>
              simp only [hrun] at h
              exact Except.noConfusion h
          | ok q =>
              obtain ⟨s2', eff2⟩ := q
              simp only [hrun, Except.ok.injEq, Prod.mk.injEq] at h
              obtain ⟨h1, h2⟩ := h
              rw [← h1]
              rcases List.mem_cons.mp hm with he | hm2
              · subst he
                simp only [step, Except.ok.injEq] at hstep
                have hs1 : s1.isDisplayed = true := by
                  have : s1 = (revealContent cfg dom s).1 := by rw [hstep]
                  rw [this]
                  exact revealContent_fst_displayed cfg dom s
                exact (run_spec cfg dom es s1 s2' eff2 hrun).2.2 hs1
              · exact ih s1 s2' eff2 hrun hm2

/-- C1: the reveal operation is a one-shot idempotent latch: over any event
sequence mixing threshold triggers, manual forceReveal, discovery probes
(with their fail-open fallback), the persisted-state fast path and
teardown, a run from an un-displayed state emits exactly one set of DOM
mutations (one delay-class-removal batch, present iff the latch
transitioned, and certainly present once a forceReveal occurred) and at
most one storage write; a second revealContent call is a complete no-op;
the latch write is the first micro-action of a reveal, before any side
effect; and no event ever resets a set latch. -/
theorem C1_reveal_one_shot (cfg : Config) (dom : Dom) (s : CState)
    (events : List Event) (s2 : CState) (effs : List Effect)
    (h0 : s.isDisplayed = false)
    (hrun : run cfg dom s events = Except.ok (s2, effs)) :
    effs.countP isRevealMarker = (if s2.isDisplayed then 1 else 0)
    ∧ effs.countP isStorageWrite ≤ 1
    ∧ (Event.forceReveal ∈ events → effs.countP isRevealMarker = 1)
    ∧ revealContent cfg dom (revealContent cfg dom s).1 = ((revealContent cfg dom s).1, [])
    ∧ (revealTrace cfg dom s).head? = some MicroAction.setLatch
    ∧ (∀ (t t1 : CState) (e : Event) (eff1 : List Effect),
        step cfg dom t e = Except.ok (t1, eff1) → t.isDisplayed = true →
        t1.isDisplayed = true) := by
  obtain ⟨m, w, _⟩ := run_spec cfg dom events s s2 effs hrun
  rw [h0] at m
  simp only [Bool.false_eq_true, if_false] at m
  refine ⟨m, ?_, ?_, ?_, ?_, ?_⟩
  · refine le_trans w ?_
    rw [m]
    split <;> omega
  · intro hf
    rw [m, run_force_displayed cfg dom events s s2 effs hrun hf]
    simp
  · exact revealContent_noop cfg dom _ (revealContent_fst_displayed cfg dom s)
  · unfold revealTrace
    simp [h0]
  · exact fun t t1 e eff1 hstep hd => (step_spec cfg dom t e t1 eff1 hstep).2.2 hd

/-- Witness for C1 at a concrete input: two forceReveal calls on a fresh
default-configured controller produce a single reveal batch and no storage
write. -/
theorem C1_reveal_one_shot_witness :
    freshState.isDisplayed = false
    ∧ run DEFAULT_CONFIG noDom freshState [Event.forceReveal, Event.forceReveal]
        = Except.ok ({ freshState with isDisplayed := true },
            [Effect.removeClassAll "atomicat-delay", Effect.schedScroll 500 "kits"])
    ∧ [Effect.removeClassAll "atomicat-delay",
       Effect.schedScroll 500 "kits"].countP isStorageWrite ≤ 1 := by
  refine ⟨rfl, rfl, ?_⟩
  exact (C1_reveal_one_shot DEFAULT_CONFIG noDom freshState
    [Event.forceReveal, Event.forceReveal]
    { freshState with isDisplayed := true }
    [Effect.removeClassAll "atomicat-delay", Effect.schedScroll 500 "kits"]
    rfl rfl).2.1

/-- Probes against a displayed controller are complete no-ops. -/
theorem probe_run_displayed (cfg : Config) (dom : Dom) :
    ∀ (n : Nat) (t : CState), t.isDisplayed = true →
      run cfg dom t (List.replicate n (Event.probe none)) = Except.ok (t, []) := by
  intro n
  induction n with
  | zero => intro t ht; rfl
  | succ n ih =>
      intro t ht
      have hstep : step cfg dom t (Event.probe none) = Except.ok (t, []) := by
        simp [step, startWatchingE, ht]
      simp only [List.replicate_succ, run, hstep, ih t ht, List.append_nil]

/-- Behaviour of a pure discovery run (no instance ever appears) from the
attempts counter `a`: the counter rises to `min (a+n) maxAttempts`, one
retry is scheduled per increment, and the fail-open reveal fires exactly
when the number of probes passes `maxAttempts`. -/
theorem probe_run (cfg : Config) (dom : Dom) :
    ∀ (n a : Nat) (s2 : CState) (effs : List Effect), a ≤ cfg.maxAttempts →
      run cfg dom (probeState a) (List.replicate n (Event.probe none))
        = Except.ok (s2, effs) →
      s2.attempts = min (a + n) cfg.maxAttempts
      ∧ effs.countP isRetry = min (a + n) cfg.maxAttempts - a
      ∧ (s2.isDisplayed = true ↔ cfg.maxAttempts < a + n)
      ∧ effs.countP isRevealMarker = (if cfg.maxAttempts < a + n then 1 else 0) := by
  intro n
  induction n with
  | zero =>
      intro a s2 effs ha h
      simp only [List.replicate, run, Except.ok.injEq, Prod.mk.injEq] at h
      obtain ⟨h1, h2⟩ := h
      rw [← h1, ← h2]
      refine ⟨?_, ?_, ?_, ?_⟩
      · simp only [probeState] <;> omega
      · simp only [List.countP_nil] <;> omega
      · simp [probeState] <;> omega
      · simp only [List.countP_nil]
        have : ¬ cfg.maxAttempts < a + 0 := by omega
        rw [if_neg this]
  | succ n ih =>
      intro a s2 effs ha h
      rw [List.replicate_succ] at h
      simp only [run] at h
      by_cases hM : cfg.maxAttempts ≤ a
      · have ha0 : a = cfg.maxAttempts := le_antisymm ha hM
        have hstep : step cfg dom (probeState a) (Event.probe none)
            = Except.ok ({ probeState a with isDisplayed := true },
                         revealSideEffects cfg dom (probeState a)) := by
          simp [step, startWatchingE, probeState, hM, revealContent, revealSideEffects]
        simp only [hstep] at h
        rw [probe_run_displayed cfg dom n _ rfl] at h
        rw [Except.ok.injEq, Prod.mk.injEq] at h
        obtain ⟨h1, h2⟩ := h
        rw [← h1, ← h2]
        refine ⟨?_, ?_, ?_, ?_⟩
        · simp [probeState] <;> omega
        · rw [List.countP_append]
          rw [revealSideEffects_retry_count]
          simp only [List.countP_nil]
          omega
        · simp [probeState] <;> omega
        · rw [List.countP_append]
          rw [revealSideEffects_marker_count]
          simp only [List.countP_nil]
          have : cfg.maxAttempts < a + (n + 1) := by omega
          rw [if_pos this]
      · have hstep : step cfg dom (probeState a) (Event.probe none)
            = Except.ok (probeState (a + 1), [Effect.schedRetry cfg.retryDelay]) := by
          simp [step, startWatchingE, probeState, hM]
        simp only [hstep] at h
        cases hrun : run cfg dom (probeState (a + 1)) (List.replicate n (Event.probe none)) with
        | error u =>
            simp only [hrun] at h
            exact Except.noConfusion h
        | ok q =>
            obtain ⟨s2', eff2⟩ := q
            simp only [hrun, Except.ok.injEq, Prod.mk.injEq] at h
            obtain ⟨h1, h2⟩ := h
            obtain ⟨i1, i2, i3, i4⟩ := ih (a + 1) s2' eff2 (by omega) hrun
            rw [← h1, ← h2]
            refine ⟨by rw [i1]; omega, ?_, ?_, ?_⟩
            · rw [List.countP_append, i2]
              simp [List.countP_cons, List.countP_nil, isRetry]
              omega
            · rw [i3]
              omega
            · rw [List.countP_append, i4]
              simp [List.countP_cons, List.countP_nil, isRevealMarker]
              split <;> split <;> omega

/-- The detachment block contains no storage writes at all, no scheduled
scrolls, no immediate scrolls and no attachments. -/
theorem detachEffects_nontruewrite (inst : VideoInstance) :
    (detachEffects inst).countP isNonTrueWrite = 0 := by
  unfold detachEffects
  cases detachInvoked inst <;> simp [List.countP_cons, isNonTrueWrite]

theorem detachEffects_alienSched (inst : VideoInstance) :
    (detachEffects inst).countP isAlienSched = 0 := by
  unfold detachEffects
  cases detachInvoked inst <;> simp [List.countP_cons, isAlienSched]

theorem detachEffects_scroll (inst : VideoInstance) :
    (detachEffects inst).countP isScrollEffect = 0 := by
  unfold detachEffects
  cases detachInvoked inst <;> simp [List.countP_cons, isScrollEffect]

theorem detachEffects_attach (inst : VideoInstance) :
    (detachEffects inst).countP isAttach = 0 := by
  unfold detachEffects
  cases detachInvoked inst <;> simp [List.countP_cons, isAttach]

/-- Every storage write in a reveal batch carries the value "true". -/
theorem revealSideEffects_nontruewrite (cfg : Config) (dom : Dom) (s : CState) :
    (revealSideEffects cfg dom s).countP isNonTrueWrite = 0 := by
  unfold revealSideEffects
  simp only [List.countP_append]
  repeat' split
  all_goals simp [List.countP_cons, List.countP_nil, isNonTrueWrite,
                  detachEffects_nontruewrite]

/-- The only scheduled scroll in a reveal batch is the 500ms scroll to
"kits". -/
theorem revealSideEffects_alienSched (cfg : Config) (dom : Dom) (s : CState) :
    (revealSideEffects cfg dom s).countP isAlienSched = 0 := by
  unfold revealSideEffects
  simp only [List.countP_append]
  repeat' split
  all_goals simp [List.countP_cons, List.countP_nil, isAlienSched,
                  detachEffects_alienSched]

/-- A reveal batch never attaches a subscription. -/
theorem revealSideEffects_attach (cfg : Config) (dom : Dom) (s : CState) :
    (revealSideEffects cfg dom s).countP isAttach = 0 := by
  unfold revealSideEffects
  simp only [List.countP_append]
  repeat' split
  all_goals simp [List.countP_cons, List.countP_nil, isAttach, detachEffects_attach]

/-- destroy writes nothing to storage, in particular nothing other than
"true". -/
theorem destroy_nontruewrite (s : CState) :
    (destroy s).2.countP isNonTrueWrite = 0 := by
  unfold destroy
  simp only [List.countP_append]
  repeat' split
  all_goals simp [List.countP_cons, List.countP_nil, isNonTrueWrite,
                  detachEffects_nontruewrite]

/-- Immediate scrollIntoView effects of a reveal batch: exactly one when a
truthy scrollToId differs from the stripped selector and its element
exists, none otherwise. -/
theorem revealSideEffects_scroll_count (cfg : Config) (dom : Dom) (s : CState)
    (id : String) (hsc : cfg.scrollToId = some id) :
    (revealSideEffects cfg dom s).countP isScrollEffect
      = (if id ≠ "" ∧ id ≠ String.mk (stripFirstHash cfg.delayedContentSelector.data)
            ∧ dom.hasId id then 1 else 0) := by
  unfold revealSideEffects
  rw [hsc]
  simp only [List.countP_append]
  repeat' split
  all_goals simp_all [List.countP_cons, List.countP_nil, isScrollEffect,
                      detachEffects_scroll]

/-- Bool/Prop bridge for handlerFires. -/
theorem handlerFires_iff (cfg : Config) (inst : VideoInstance) (t? : Option Rat) :
    handlerFires cfg inst t? = true
      ↔ (¬(inst.smartAutoPlay = true ∧ t?.getD 0 = 0)
          ∧ cfg.secondsToDisplay ≤ t?.getD 0) := by
  unfold handlerFires
  cases ha : inst.smartAutoPlay <;>
    by_cases h0 : t?.getD 0 = 0 <;>
    simp [ha, h0]

/-- timeupdate callbacks against a displayed controller are complete
no-ops. -/
theorem timeUpdate_run_displayed (cfg : Config) (dom : Dom) :
    ∀ (ts : List (Option Rat)) (t : CState), t.isDisplayed = true →
      run cfg dom t (ts.map Event.timeUpdate) = Except.ok (t, []) := by
  intro ts
  induction ts with
  | nil => intro t ht; rfl
  | cons t0 ts ih =>
      intro t ht
      have hstep : step cfg dom t (Event.timeUpdate t0) = Except.ok (t, []) := by
        simp only [step, timeUpdateHandler]
        cases t.videoInstance <;> simp [ht]
      simp only [List.map_cons, run, hstep, ih t ht, List.append_nil]

/-- Over a sequence of timeupdate samples the latch ends set iff some
sample fires the handler: a time (defaulted to 0 when unreadable) at or
past the threshold, excluding the autoplay-pending-with-zero samples. -/
theorem timeUpdate_run (cfg : Config) (dom : Dom) (inst : VideoInstance) :
    ∀ (ts : List (Option Rat)) (s : CState), s.videoInstance = some inst →
      s.isDisplayed = false →
      ∀ (s2 : CState) (effs : List Effect),
        run cfg dom s (ts.map Event.timeUpdate) = Except.ok (s2, effs) →
        (s2.isDisplayed = true ↔ ∃ t ∈ ts, handlerFires cfg inst t = true) := by
  intro ts
  induction ts with
  | nil =>
      intro s hvi hd s2 effs h
      simp only [List.map_nil, run, Except.ok.injEq, Prod.mk.injEq] at h
      obtain ⟨h1, h2⟩ := h
      rw [← h1]
      simp [hd]
  | cons t0 ts ih =>
      intro s hvi hd s2 effs h
      simp only [List.map_cons, run] at h
      by_cases hA : inst.smartAutoPlay = true ∧ t0.getD 0 = 0
      · have hstep : step cfg dom s (Event.timeUpdate t0) = Except.ok (s, []) := by
          simp only [step, timeUpdateHandler, hvi]
          rw [if_neg (by simp [hd]), if_pos hA]
        simp only [hstep] at h
        cases hrun : run cfg dom s (ts.map Event.timeUpdate) with
        | error u =>
            simp only [hrun] at h
            exact Except.noConfusion h
        | ok q =>
            obtain ⟨s2', eff2⟩ := q
            simp only [hrun, Except.ok.injEq, Prod.mk.injEq] at h
            obtain ⟨h1, h2⟩ := h
            rw [← h1]
            rw [ih s hvi hd s2' eff2 hrun]
            rw [List.exists_mem_cons_iff]
            have hf : ¬ handlerFires cfg inst t0 = true := by
              rw [handlerFires_iff]
              intro hcon
              exact hcon.1 hA
            simp [hf]
      · by_cases hT : cfg.secondsToDisplay ≤ t0.getD 0
        · have hstep : step cfg dom s (Event.timeUpdate t0)
              = Except.ok ({ s with isDisplayed := true, hasInterval := false },
                           revealSideEffects cfg dom s) := by
            simp only [step, timeUpdateHandler, hvi]
            rw [if_neg (by simp [hd]), if_neg hA, if_pos hT,
                revealContent_on_fresh cfg dom s hd]
            rw [hvi]
          simp only [hstep] at h
          rw [timeUpdate_run_displayed cfg dom ts _ rfl] at h
          rw [Except.ok.injEq, Prod.mk.injEq] at h
          obtain ⟨h1, h2⟩ := h
          rw [← h1]
          rw [List.exists_mem_cons_iff]
          have hf : handlerFires cfg inst t0 = true := (handlerFires_iff cfg inst t0).mpr ⟨hA, hT⟩
          simp [hf]
        · have hstep : step cfg dom s (Event.timeUpdate t0) = Except.ok (s, []) := by
            simp only [step, timeUpdateHandler, hvi]
            rw [if_neg (by simp [hd]), if_neg hA, if_neg hT]
          simp only [hstep] at h
          cases hrun : run cfg dom s (ts.map Event.timeUpdate) with
          | error u =>
              simp only [hrun] at h
              exact Except.noConfusion h
          | ok q =>
              obtain ⟨s2', eff2⟩ := q
              simp only [hrun, Except.ok.injEq, Prod.mk.injEq] at h
              obtain ⟨h1, h2⟩ := h
              rw [← h1]
              rw [ih s hvi hd s2' eff2 hrun]
              rw [List.exists_mem_cons_iff]
              have hf : ¬ handlerFires cfg inst t0 = true := by
                rw [handlerFires_iff]
                intro hcon
                exact hT hcon.2
              simp [hf]

/-- The immediate post-discovery check fires iff the nested video element
exists and reports a time at or past the threshold — with no autoplay
exception. -/
theorem immediateCheck_iff (cfg : Config) (inst : VideoInstance) :
    immediateCheck cfg inst = true
      ↔ ∃ v t, inst.video = some v ∧ v.currentTime = some t
          ∧ cfg.secondsToDisplay ≤ t := by
  unfold immediateCheck
  cases hv : inst.video with
  | none => simp
  | some v =>
      cases ht : v.currentTime with
      | none => simp [ht]
      | some t => simp [ht, decide_eq_true_eq]

/-- C2 (amended): over every sequence of timeupdate samples the reveal
fires iff some sample has reported-or-zero time ≥ threshold and is not an
(autoplay-pending ∧ time exactly 0) sample; but the one immediate
synchronous post-discovery check applies no autoplay exception: it fires
exactly when the nested video element reports a time ≥ threshold, and the
controller leaves discovery with the latch equal to that check's result.
-/
theorem C2_threshold_semantics (cfg : Config) (dom : Dom) (inst : VideoInstance)
    (s : CState) (ts : List (Option Rat)) (s2 : CState) (effs : List Effect)
    (hvi : s.videoInstance = some inst) (hd : s.isDisplayed = false)
    (hrun : run cfg dom s (ts.map Event.timeUpdate) = Except.ok (s2, effs)) :
    (s2.isDisplayed = true ↔ ∃ t ∈ ts, handlerFires cfg inst t = true)
    ∧ (∀ t : Option Rat, handlerFires cfg inst t = true
        ↔ (¬(inst.smartAutoPlay = true ∧ t.getD 0 = 0)
            ∧ cfg.secondsToDisplay ≤ t.getD 0))
    ∧ (immediateCheck cfg inst = true
        ↔ ∃ v t, inst.video = some v ∧ v.currentTime = some t
            ∧ cfg.secondsToDisplay ≤ t)
    ∧ (inst.hasOn = true →
        ∀ (s3 : CState) (eff3 : List Effect),
          startWatchingE cfg dom freshState (some inst) = Except.ok (s3, eff3) →
          s3.isDisplayed = immediateCheck cfg inst) := by
  refine ⟨timeUpdate_run cfg dom inst ts s hvi hd s2 effs hrun,
          handlerFires_iff cfg inst,
          immediateCheck_iff cfg inst,
          ?_⟩
  intro hOn s3 eff3 hsw
  unfold startWatchingE at hsw
  rw [if_neg (by simp [freshState])] at hsw
  simp only at hsw
  rw [if_pos hOn] at hsw
  cases hI : immediateCheck cfg inst with
  | false =>
      rw [if_neg (by simp [hI])] at hsw
      rw [Except.ok.injEq, Prod.mk.injEq] at hsw
      obtain ⟨h1, h2⟩ := hsw
      rw [← h1]
      rfl
  | true =>
      rw [if_pos hI] at hsw
      rw [Except.ok.injEq, Prod.mk.injEq] at hsw
      obtain ⟨h1, h2⟩ := hsw
      rw [← h1]
      exact revealContent_fst_displayed cfg dom _

/-- C2 counterexample: with threshold 0 and an autoplay-pending instance
whose nested video reports exactly 0, the immediate synchronous
post-discovery check reveals — yet the claim demands that a sample with
autoplay-pending true and time exactly 0 never fire the reveal. -/
theorem C2_counterexample :
    autoInst.smartAutoPlay = true
    ∧ (autoInst.video.map VideoElem.currentTime) = some (some 0)
    ∧ zeroCfg.secondsToDisplay = 0
    ∧ startWatchingE zeroCfg noDom freshState (some autoInst)
        = Except.ok ({ attempts := 0, isDisplayed := true,
                       videoInstance := some autoInst, hasHandler := true,
                       hasInterval := false },
            [Effect.attachOn, Effect.startSampler,
             Effect.removeClassAll "atomicat-delay", Effect.schedScroll 500 "kits",
             Effect.clearSampler]) :=
  ⟨rfl, rfl, rfl, rfl⟩

/-- C3: when no playback instance ever becomes available, a run of n
discovery probes increments `attempts` once per failed probe up to (and
never past) `maxAttempts`, schedules exactly `min n maxAttempts` retries,
and fires the fail-open reveal exactly when the probes outnumber
`maxAttempts` — so the (maxAttempts+1)-th probe reveals and later probes
are no-ops; with maxAttempts = 0 the very first probe reveals with zero
retries scheduled. -/
theorem C3_discovery_fail_open (cfg : Config) (dom : Dom) (n : Nat) (s2 : CState)
    (effs : List Effect)
    (hrun : run cfg dom freshState (List.replicate n (Event.probe none))
        = Except.ok (s2, effs)) :
    s2.attempts = min n cfg.maxAttempts
    ∧ effs.countP isRetry = min n cfg.maxAttempts
    ∧ (s2.isDisplayed = true ↔ cfg.maxAttempts < n)
    ∧ effs.countP isRevealMarker = (if cfg.maxAttempts < n then 1 else 0) := by
  have hfresh : freshState = probeState 0 := rfl
  rw [hfresh] at hrun
  obtain ⟨i1, i2, i3, i4⟩ := probe_run cfg dom n 0 s2 effs (Nat.zero_le _) hrun
  rw [Nat.zero_add] at i1 i2 i3 i4
  exact ⟨i1, by rw [i2]; omega, i3, i4⟩

/-- Witness for C3 at a concrete input: with maxAttempts = 0 the single
first probe reveals immediately with zero retries scheduled. -/
theorem C3_discovery_fail_open_witness :
    run zeroAttemptsCfg noDom freshState (List.replicate 1 (Event.probe none))
      = Except.ok ({ freshState with isDisplayed := true },
          [Effect.removeClassAll "atomicat-delay", Effect.schedScroll 500 "kits"])
    ∧ ({ freshState with isDisplayed := true } : CState).attempts
        = min 1 zeroAttemptsCfg.maxAttempts
    ∧ [Effect.removeClassAll "atomicat-delay",
       Effect.schedScroll 500 "kits"].countP isRetry = min 1 zeroAttemptsCfg.maxAttempts
    ∧ (({ freshState with isDisplayed := true } : CState).isDisplayed = true
        ↔ zeroAttemptsCfg.maxAttempts < 1)
    ∧ [Effect.removeClassAll "atomicat-delay",
       Effect.schedScroll 500 "kits"].countP isRevealMarker
        = (if zeroAttemptsCfg.maxAttempts < 1 then 1 else 0) := by
  refine ⟨rfl, ?_⟩
  exact C3_discovery_fail_open zeroAttemptsCfg noDom 1
    { freshState with isDisplayed := true }
    [Effect.removeClassAll "atomicat-delay", Effect.schedScroll 500 "kits"] rfl

/-- Any revealContent trace has only "true"-valued storage writes. -/
theorem revealContent_nontruewrite (cfg : Config) (dom : Dom) (t : CState) :
    (revealContent cfg dom t).2.countP isNonTrueWrite = 0 := by
  unfold revealContent
  split
  · rfl
  · exact revealSideEffects_nontruewrite cfg dom t

/-- Any single event's trace has only "true"-valued storage writes. -/
theorem step_nontruewrite (cfg : Config) (dom : Dom) (s : CState) (e : Event)
    (s1 : CState) (effs : List Effect) (h : step cfg dom s e = Except.ok (s1, effs)) :
    effs.countP isNonTrueWrite = 0 := by
  have hnoop : (s1, effs) = (s, ([] : List Effect)) → effs.countP isNonTrueWrite = 0 := by
    intro hp
    rw [Prod.mk.injEq] at hp
    rw [hp.2]
    rfl
  have hrev : ∀ t : CState, revealContent cfg dom t = (s1, effs) →
      effs.countP isNonTrueWrite = 0 := by
    intro t hp
    have he : effs = (revealContent cfg dom t).2 := by rw [hp]
    rw [he]
    exact revealContent_nontruewrite cfg dom t
  cases e with
  | timeUpdate t =>
      simp only [step] at h
      unfold timeUpdateHandler at h
      split at h
      · rw [Except.ok.injEq] at h
        exact hnoop h.symm
      · rcases hvi : s.videoInstance with _ | inst <;> simp only [hvi] at h
        · exact Except.noConfusion h
        · split at h <;> (try split at h)
          all_goals rw [Except.ok.injEq] at h
          all_goals first
            | exact hnoop h.symm
            | exact hrev s h
  | probe i =>
      simp only [step] at h
      unfold startWatchingE at h
      split at h
      · rw [Except.ok.injEq] at h
        exact hnoop h.symm
      · rcases i with _ | inst <;> simp only at h
        · split at h <;> rw [Except.ok.injEq] at h
          all_goals first
            | exact hrev { s with videoInstance := none } h
            | (rw [Prod.mk.injEq] at h
               rw [← h.2]
               simp [isNonTrueWrite, List.countP_cons])
        · by_cases hOn : inst.hasOn = true
          case neg =>
            rw [if_neg hOn] at h
            cases h
          rw [if_pos hOn] at h
          split at h
          all_goals rw [Except.ok.injEq, Prod.mk.injEq] at h
          all_goals first
            | (rw [← h.2, List.countP_append]
               rw [revealContent_nontruewrite]
               simp [isNonTrueWrite, List.countP_cons])
            | (rw [← h.2]
               simp [isNonTrueWrite, List.countP_cons])
  | forceReveal =>
      simp only [step] at h
      rw [Except.ok.injEq] at h
      exact hrev s h
  | fastReveal =>
      simp only [step] at h
      rw [Except.ok.injEq] at h
      exact hrev s h
  | teardown =>
      simp only [step] at h
      rw [Except.ok.injEq] at h
      rw [Prod.mk.injEq] at h
      rw [← h.2]
      exact destroy_nontruewrite s

/-- Any run's trace has only "true"-valued storage writes. -/
theorem run_nontruewrite (cfg : Config) (dom : Dom) :
    ∀ (es : List Event) (s s2 : CState) (effs : List Effect),
      run cfg dom s es = Except.ok (s2, effs) →
      effs.countP isNonTrueWrite = 0 := by
  intro es
  induction es with
  | nil =>
      intro s s2 effs h
      simp only [run, Except.ok.injEq, Prod.mk.injEq] at h
      rw [← h.2]
      rfl
  | cons e es ih =>
      intro s s2 effs h
      simp only [run] at h
      cases hstep : step cfg dom s e with
      | error u =>
          simp only [hstep] at h
          exact Except.noConfusion h
      | ok p =>
          obtain ⟨s1, eff1⟩ := p
          simp only [hstep] at h
          cases hrun : run cfg dom s1 es with
          | error u =>
              simp only [hrun] at h
              exact Except.noConfusion h
          | ok q =>
              obtain ⟨s2', eff2⟩ := q
              simp only [hrun, Except.ok.injEq, Prod.mk.injEq] at h
              rw [← h.2, List.countP_append,
                  step_nontruewrite cfg dom s e s1 eff1 hstep,
                  ih s1 s2' eff2 hrun]

/-- A trace with no non-"true" writes only ever writes "true". -/
theorem countP_zero_write_true (effs : List Effect)
    (h : effs.countP isNonTrueWrite = 0) :
    ∀ key v, Effect.storageWrite key v ∈ effs → v = "true" := by
  intro key v hmem
  have h2 := List.countP_eq_zero.mp h _ hmem
  simpa [isNonTrueWrite] using h2

/-- Applying a trace whose storage writes are all "true" preserves a
persisted "true" value. -/
theorem applyStorage_preserves (effs : List Effect) :
    ∀ (store : String → Option String) (k : String),
      (∀ key v, Effect.storageWrite key v ∈ effs → v = "true") →
      store k = some "true" →
      applyStorage effs store k = some "true" := by
  induction effs with
  | nil =>
      intro store k _ ht
      exact ht
  | cons e rest ih =>
      intro store k hall ht
      cases e with
      | storageWrite key v =>
          have hv : v = "true" := hall key v (List.mem_cons_self _ _)
          unfold applyStorage
          refine ih _ k (fun key2 v2 hm => hall key2 v2 (List.mem_cons_of_mem _ hm)) ?_
          by_cases hk : k = key <;> simp [hk, hv, ht]
      | removeClassAll cls =>
          exact ih store k (fun key2 v2 hm => hall key2 v2 (List.mem_cons_of_mem _ hm)) ht
      | addClass sel cls =>
          exact ih store k (fun key2 v2 hm => hall key2 v2 (List.mem_cons_of_mem _ hm)) ht
      | setAria sel v =>
          exact ih store k (fun key2 v2 hm => hall key2 v2 (List.mem_cons_of_mem _ hm)) ht
      | schedScroll ms id =>
          exact ih store k (fun key2 v2 hm => hall key2 v2 (List.mem_cons_of_mem _ hm)) ht
      | scrollTo id =>
          exact ih store k (fun key2 v2 hm => hall key2 v2 (List.mem_cons_of_mem _ hm)) ht
      | clearSampler =>
          exact ih store k (fun key2 v2 hm => hall key2 v2 (List.mem_cons_of_mem _ hm)) ht
      | detachTry sh =>
          exact ih store k (fun key2 v2 hm => hall key2 v2 (List.mem_cons_of_mem _ hm)) ht
      | schedRetry ms =>
          exact ih store k (fun key2 v2 hm => hall key2 v2 (List.mem_cons_of_mem _ hm)) ht
      | attachOn =>
          exact ih store k (fun key2 v2 hm => hall key2 v2 (List.mem_cons_of_mem _ hm)) ht
      | startSampler =>
          exact ih store k (fun key2 v2 hm => hall key2 v2 (List.mem_cons_of_mem _ hm)) ht
      | schedFastReveal ms =>
          exact ih store k (fun key2 v2 hm => hall key2 v2 (List.mem_cons_of_mem _ hm)) ht

/-- The statements a faulted try-block run reaches always form a prefix of
the statement order. -/
theorem revealGo_take (f : RevealStep → Bool) :
    ∀ l : List RevealStep, ∃ n, (revealGo l f).1 = l.take n := by
  intro l
  induction l with
  | nil => exact ⟨0, rfl⟩
  | cons st rest ih =>
      unfold revealGo
      by_cases hf : f st = true
      · rw [if_pos hf]
        by_cases hd : st = RevealStep.detachStep
        · rw [if_pos hd]
          obtain ⟨n, hn⟩ := ih
          exact ⟨n + 1, by simp [hn]⟩
        · rw [if_neg hd]
          exact ⟨1, by simp⟩
      · rw [if_neg hf]
        obtain ⟨n, hn⟩ := ih
        exact ⟨n + 1, by simp [hn]⟩

/-- With no faults every statement of the try block runs. -/
theorem revealGo_nofault (f : RevealStep → Bool) (hf : ∀ st, f st = false) :
    ∀ l : List RevealStep, (revealGo l f).1 = l := by
  intro l
  induction l with
  | nil => rfl
  | cons st rest ih =>
      unfold revealGo
      rw [hf st]
      simp [ih]

/-- A fault only in the detachment block (whose own try/catch swallows it)
still lets every statement run. -/
theorem revealGo_detachOnly (f : RevealStep → Bool)
    (hf : ∀ st, st ≠ RevealStep.detachStep → f st = false) :
    ∀ l : List RevealStep, (revealGo l f).1 = l := by
  intro l
  induction l with
  | nil => rfl
  | cons st rest ih =>
      unfold revealGo
      by_cases hd : st = RevealStep.detachStep
      · cases hfs : f st
        · simp [ih]
        · simp [hd, ih]
      · rw [hf st hd]
        simp [ih]

/-- C4 (amended): revealContent's side effects run inside one outer
try/catch: no failure ever propagates to the caller; the statements
actually reached always form a prefix of the source order; with no faults
every side effect is attempted; and a failure confined to the detachment
block (which has its own inner try/catch) still lets every statement run —
but a failure in any earlier side effect aborts the remaining ones (see
the counterexample). -/
theorem C4_reveal_fault_handling (s : CState) (f : RevealStep → Bool)
    (hd : s.isDisplayed = false) :
    (revealRun s f).2 = false
    ∧ (∃ n, (revealRun s f).1 = revealStepOrder.take n)
    ∧ ((∀ st, f st = false) → (revealRun s f).1 = revealStepOrder)
    ∧ ((∀ st, st ≠ RevealStep.detachStep → f st = false) →
        (revealRun s f).1 = revealStepOrder) := by
  unfold revealRun
  rw [if_neg (by simp [hd])]
  exact ⟨rfl, revealGo_take f revealStepOrder,
         fun hf => revealGo_nofault f hf revealStepOrder,
         fun hf => revealGo_detachOnly f hf revealStepOrder⟩

/-- Witness for C4 at a concrete input: with no faults all seven side
effects are attempted and nothing propagates. -/
theorem C4_reveal_fault_handling_witness :
    freshState.isDisplayed = false
    ∧ (revealRun freshState (fun _ => false)).2 = false
    ∧ (revealRun freshState (fun _ => false)).1 = revealStepOrder := by
  refine ⟨rfl, ?_, ?_⟩
  · exact (C4_reveal_fault_handling freshState (fun _ => false) rfl).1
  · exact (C4_reveal_fault_handling freshState (fun _ => false) rfl).2.2.1
      (fun st => rfl)

/-- C4 counterexample: a fault in the first side effect (the delay-class
removal loop) is caught by the single outer try/catch, but every remaining
side effect is skipped — the side effects are not independently
fault-isolated. -/
theorem C4_counterexample :
    (revealRun freshState (fun st => decide (st = RevealStep.rmDelay))).1
        = [RevealStep.rmDelay]
    ∧ RevealStep.showContent
        ∉ (revealRun freshState (fun st => decide (st = RevealStep.rmDelay))).1
    ∧ RevealStep.storeFlag
        ∉ (revealRun freshState (fun st => decide (st = RevealStep.rmDelay))).1
    ∧ (revealRun freshState (fun st => decide (st = RevealStep.rmDelay))).2 = false := by
  decide

/-- C5: with a truthy storageKey whose persisted value is the literal
"true" at construction, the constructor only schedules the reveal after
the fixed 100ms delay — startWatching is never called, so no discovery
probe, no retry and no subscription attachment happen — and the scheduled
reveal then performs the DOM and scroll side effects. -/
theorem C5_persisted_fast_path (cfg : Config) (storage : String → Option String)
    (dom : Dom) (inst? : Option VideoInstance) (k : String)
    (hk : cfg.storageKey = some k) (hne : k ≠ "")
    (hst : storage k = some "true") :
    construct cfg storage dom inst? = Except.ok (freshState, [Effect.schedFastReveal 100])
    ∧ step cfg dom freshState Event.fastReveal
        = Except.ok ({ freshState with isDisplayed := true },
                     revealSideEffects cfg dom freshState)
    ∧ Effect.removeClassAll cfg.delayClass ∈ revealSideEffects cfg dom freshState
    ∧ Effect.schedScroll 500 "kits" ∈ revealSideEffects cfg dom freshState
    ∧ Effect.storageWrite k "true" ∈ revealSideEffects cfg dom freshState
    ∧ (revealSideEffects cfg dom freshState).countP isAttach = 0
    ∧ (revealSideEffects cfg dom freshState).countP isRetry = 0
    ∧ ([Effect.schedFastReveal 100] : List Effect).countP isAttach = 0
    ∧ ([Effect.schedFastReveal 100] : List Effect).countP isRetry = 0 := by
  refine ⟨?_, rfl, ?_, ?_, ?_, revealSideEffects_attach cfg dom freshState,
          revealSideEffects_retry_count cfg dom freshState, rfl, rfl⟩
  · unfold construct
    simp only [hk]
    rw [if_pos hne, if_pos hst]
  · simp [revealSideEffects]
  · simp [revealSideEffects]
  · simp [revealSideEffects, hk, hne]

/-- Witness for C5 at a concrete input. -/
theorem C5_persisted_fast_path_witness :
    storageCfg.storageKey = some "vdc"
    ∧ storeTrue "vdc" = some "true"
    ∧ construct storageCfg storeTrue noDom none
        = Except.ok (freshState, [Effect.schedFastReveal 100])
    ∧ Effect.storageWrite "vdc" "true" ∈ revealSideEffects storageCfg noDom freshState := by
  refine ⟨rfl, rfl, ?_, ?_⟩
  · exact (C5_persisted_fast_path storageCfg storeTrue noDom none "vdc" rfl
      (by decide) rfl).1
  · exact (C5_persisted_fast_path storageCfg storeTrue noDom none "vdc" rfl
      (by decide) rfl).2.2.2.2.1

/-- C6 (amended): every entry point contains its faults except two:
subscription attachment — startWatching raises (uncaught) exactly when it
finds an instance with no callable `on` while the latch is unset — and
the timeupdate callback, whose bare `this.videoInstance.smartAutoPlay`
read (source line 200, no optional chaining) raises exactly when the
callback fires with the latch unset and `videoInstance` nulled, which is
reachable after destroy() whenever detachment failed silently.  A missing
instance never raises (retry or fail-open reveal); reveal's try/catch
never lets a side-effect failure propagate; and the script-tag auto-init
path catches everything, including malformed JSON and a throwing
construction. -/
theorem C6_fault_containment :
    (∀ (cfg : Config) (dom : Dom) (s : CState) (i : VideoInstance),
        startWatchingE cfg dom s (some i) = Except.error ()
          ↔ (s.isDisplayed = false ∧ i.hasOn = false))
    ∧ (∀ (cfg : Config) (dom : Dom) (s : CState),
        startWatchingE cfg dom s none ≠ Except.error ())
    ∧ (∀ (cfg : Config) (dom : Dom) (s : CState) (t : Option Rat),
        timeUpdateHandler cfg dom s t = Except.error ()
          ↔ (s.isDisplayed = false ∧ s.videoInstance = none))
    ∧ (∀ (cfg : Config) (dom : Dom) (s : CState) (t : Option Rat),
        s.isDisplayed = false →
        timeUpdateHandler cfg dom (destroy s).1 t = Except.error ())
    ∧ (∀ (s : CState) (f : RevealStep → Bool), (revealRun s f).2 = false)
    ∧ (∀ (rs : ReadyState) (attr : Option String) (parse : String → Option Config)
         (storage : String → Option String) (dom : Dom) (i? : Option VideoInstance),
        autoInit rs none attr parse storage dom i? = Except.ok ()) := by
  refine ⟨?_, ?_, ?_, ?_, ?_, ?_⟩
  · intro cfg dom s i
    unfold startWatchingE
    cases hd : s.isDisplayed <;> cases hOn : i.hasOn <;>
      simp [hd, hOn] <;> (try split) <;> simp
  · intro cfg dom s
    unfold startWatchingE
    cases hd : s.isDisplayed <;> simp [hd] <;> (try split) <;> simp
  · intro cfg dom s t
    unfold timeUpdateHandler
    cases hd : s.isDisplayed <;>
      rcases hvi : s.videoInstance with _ | inst <;>
      simp [hd, hvi] <;> (try split) <;> (try simp) <;> (try split) <;> (try simp)
  · intro cfg dom s t hd
    unfold timeUpdateHandler destroy
    simp [hd]
  · intro s f
    unfold revealRun
    split <;> rfl
  · intro rs attr parse storage dom i?
    unfold autoInit
    repeat' split
    all_goals first
      | rfl
      | simp_all

/-- C6 counterexample: an instance lacking a callable `on` makes the
unguarded `videoInstance.on('timeupdate', …)` call raise a TypeError that
escapes startWatching — and hence the synchronous constructor and init
paths; moreover the timeupdate callback itself raises when it fires after
destroy() nulled `videoInstance` while the latch is still unset. -/
theorem C6_counterexample :
    noOnInst.hasOn = false
    ∧ startWatchingE DEFAULT_CONFIG noDom freshState (some noOnInst) = Except.error ()
    ∧ construct DEFAULT_CONFIG (fun _ => none) noDom (some noOnInst) = Except.error ()
    ∧ (initVideoDelayControl ReadyState.complete DEFAULT_CONFIG (fun _ => none) noDom
        (some noOnInst)).1 = some (Except.error ())
    ∧ watchState.isDisplayed = false
    ∧ timeUpdateHandler DEFAULT_CONFIG noDom (destroy watchState).1 (some 0)
        = Except.error () :=
  ⟨rfl, rfl, rfl, rfl, rfl, rfl⟩

/-- Which detachment attempts the block emits: exactly the invoked
strategy. -/
theorem detachTry_mem_detachEffects (i : VideoInstance) (sh : DetachShape) :
    Effect.detachTry sh ∈ detachEffects i ↔ detachInvoked i = some sh := by
  cases hdi : detachInvoked i <;> simp [detachEffects, hdi, eq_comm]

/-- destroy emits the detachment attempt for exactly the strategy the
capability chain selects, whenever instance and handler are present. -/
theorem destroy_detachTry_mem (s : CState) (i : VideoInstance) (sh : DetachShape)
    (hvi : s.videoInstance = some i) (hh : s.hasHandler = true) :
    (Effect.detachTry sh ∈ (destroy s).2 ↔ detachInvoked i = some sh) := by
  unfold destroy
  simp only [hvi, if_pos hh, List.mem_append]
  constructor
  · intro hmem
    rcases hmem with h1 | h2
    · exfalso
      by_cases hi : s.hasInterval = true
      · rw [if_pos hi] at h1
        simp at h1
      · rw [if_neg hi] at h1
        cases h1
    · exact (detachTry_mem_detachEffects i sh).mp h2
  · intro hdi
    right
    exact (detachTry_mem_detachEffects i sh).mpr hdi

/-- A reveal on an unset latch emits the detachment attempt for exactly
the strategy the capability chain selects, whenever instance and handler
are present. -/
theorem reveal_detachTry_mem (cfg : Config) (dom : Dom) (s : CState)
    (i : VideoInstance) (sh : DetachShape)
    (hvi : s.videoInstance = some i) (hh : s.hasHandler = true)
    (hd : s.isDisplayed = false) :
    (Effect.detachTry sh ∈ (revealContent cfg dom s).2 ↔ detachInvoked i = some sh) := by
  rw [revealContent_on_fresh cfg dom s hd]
  show Effect.detachTry sh ∈ revealSideEffects cfg dom s ↔ _
  unfold revealSideEffects
  rcases hsk : cfg.storageKey with _ | k <;>
  rcases hsc : cfg.scrollToId with _ | id <;>
  simp only [hvi, if_pos hh, List.mem_append] <;>
  split_ifs <;> simp [detachTry_mem_detachEffects i sh]

/-- C7 (amended): the detachment chain checks the three capability shapes
in order but invokes only the first one whose typeof-test passes (at most
one invocation); a failure of that single invocation is caught by the
surrounding try/catch and never propagates, but the later shapes are not
attempted after a failure; both revealContent (on an unset latch) and
destroy emit the detachment attempt for exactly that one strategy
whenever instance and handler are present. -/
theorem C7_detach_first_capability (inst : VideoInstance) :
    (detachRun inst).1.length ≤ 1
    ∧ (detachRun inst).1 = (detachInvoked inst).toList
    ∧ (∀ i2 : VideoInstance,
        detachEffects i2 = (detachInvoked i2).toList.map Effect.detachTry)
    ∧ (detachInvoked inst = some DetachShape.off ↔ inst.hasOff = true)
    ∧ (detachInvoked inst = some DetachShape.remove
        ↔ (inst.hasOff = false ∧ inst.hasRemoveEventListener = true))
    ∧ (detachInvoked inst = some DetachShape.videoRemove
        ↔ (inst.hasOff = false ∧ inst.hasRemoveEventListener = false
            ∧ ∃ v, inst.video = some v ∧ v.hasRemoveEventListener = true))
    ∧ (∀ (s : CState), s.videoInstance = some inst → s.hasHandler = true →
        ∀ sh, (Effect.detachTry sh ∈ (destroy s).2 ↔ detachInvoked inst = some sh))
    ∧ (∀ (cfg : Config) (dom : Dom) (s : CState), s.videoInstance = some inst →
        s.hasHandler = true → s.isDisplayed = false →
        ∀ sh, (Effect.detachTry sh ∈ (revealContent cfg dom s).2
                ↔ detachInvoked inst = some sh)) := by
  refine ⟨?_, ?_, ?_, ?_, ?_, ?_,
          fun s hvi hh sh => destroy_detachTry_mem s inst sh hvi hh,
          fun cfg dom s hvi hh hd sh => reveal_detachTry_mem cfg dom s inst sh hvi hh hd⟩
  · cases hdi : detachInvoked inst <;> simp [detachRun, hdi]
  · cases hdi : detachInvoked inst <;> simp [detachRun, hdi]
  · intro i2
    cases hdi : detachInvoked i2 <;> simp [detachEffects, hdi]
  · unfold detachInvoked
    cases ho : inst.hasOff <;> cases hr : inst.hasRemoveEventListener <;>
      rcases hv : inst.video with _ | v <;>
      simp [ho, hr, hv] <;> (try split) <;> simp_all
  · unfold detachInvoked
    cases ho : inst.hasOff <;> cases hr : inst.hasRemoveEventListener <;>
      rcases hv : inst.video with _ | v <;>
      simp [ho, hr, hv] <;> (try split) <;> simp_all
  · unfold detachInvoked
    cases ho : inst.hasOff <;> cases hr : inst.hasRemoveEventListener <;>
      rcases hv : inst.video with _ | v <;>
      simp [ho, hr, hv] <;> (try split) <;> simp_all

/-- C7 counterexample: when `off` exists but throws while a working
`removeEventListener` is also present, only `off` is invoked; its failure
is swallowed and the next strategy is never attempted. -/
theorem C7_counterexample :
    throwOffInst.hasRemoveEventListener = true
    ∧ shapeThrows throwOffInst DetachShape.off = true
    ∧ detachRun throwOffInst = ([DetachShape.off], true)
    ∧ DetachShape.remove ∉ (detachRun throwOffInst).1 := by
  decide

/-- The detachment block never emits a sampler cancellation. -/
theorem clearSampler_not_detach (i : VideoInstance) :
    Effect.clearSampler ∉ detachEffects i := by
  unfold detachEffects
  cases detachInvoked i <;> simp

/-- Witness for C2's amended theorem at a concrete input: threshold 5,
samples 3 then 10 — the second sample fires. -/
theorem C2_threshold_semantics_witness :
    watchState.videoInstance = some plainInst
    ∧ watchState.isDisplayed = false
    ∧ run fiveCfg noDom watchState
        (([some 3, some 10] : List (Option Rat)).map Event.timeUpdate)
        = Except.ok ({ watchState with isDisplayed := true },
            [Effect.removeClassAll "atomicat-delay", Effect.schedScroll 500 "kits"])
    ∧ (({ watchState with isDisplayed := true } : CState).isDisplayed = true
        ↔ ∃ t ∈ ([some 3, some 10] : List (Option Rat)),
            handlerFires fiveCfg plainInst t = true) := by
  refine ⟨rfl, rfl, rfl, ?_⟩
  exact (C2_threshold_semantics fiveCfg noDom plainInst watchState
    [some 3, some 10] { watchState with isDisplayed := true }
    [Effect.removeClassAll "atomicat-delay", Effect.schedScroll 500 "kits"]
    rfl rfl rfl).1

/-- C8: destroy cancels the sampler, detaches the subscription and clears
the source and subscription handles for every state, independently of
`isDisplayed`; it leaves `isDisplayed` and `attempts` unchanged and writes
nothing to storage; and no operation of the system ever clears a persisted
"true" flag — every storage write any event emits carries the value
"true", so applying any event trace preserves a stored "true". -/
theorem C8_destroy_frame_and_flag (cfg : Config) (dom : Dom) (s t : CState)
    (e : Event) (s1 : CState) (effs : List Effect)
    (store : String → Option String) (k : String)
    (hstep : step cfg dom t e = Except.ok (s1, effs))
    (htrue : store k = some "true") :
    (destroy s).1.isDisplayed = s.isDisplayed
    ∧ (destroy s).1.attempts = s.attempts
    ∧ (destroy s).1.videoInstance = none
    ∧ (destroy s).1.hasHandler = false
    ∧ (destroy s).1.hasInterval = false
    ∧ (Effect.clearSampler ∈ (destroy s).2 ↔ s.hasInterval = true)
    ∧ (∀ (i : VideoInstance), s.videoInstance = some i → s.hasHandler = true →
        ∀ sh, (Effect.detachTry sh ∈ (destroy s).2 ↔ detachInvoked i = some sh))
    ∧ (destroy s).2.countP isStorageWrite = 0
    ∧ (∀ key v, Effect.storageWrite key v ∈ effs → v = "true")
    ∧ applyStorage effs store k = some "true" := by
  have hall := countP_zero_write_true effs (step_nontruewrite cfg dom t e s1 effs hstep)
  refine ⟨rfl, rfl, rfl, rfl, rfl, ?_,
          fun i hvi hh sh => destroy_detachTry_mem s i sh hvi hh,
          destroy_storage s, hall,
          applyStorage_preserves effs store k hall htrue⟩
  unfold destroy
  simp only [List.mem_append]
  constructor
  · intro hmem
    rcases hmem with h1 | h2
    · by_cases hi : s.hasInterval = true
      · exact hi
      · rw [if_neg hi] at h1
        cases h1
    · exfalso
      rcases hvi : s.videoInstance with _ | i <;> simp only [hvi] at h2
      · cases h2
      · by_cases hh : s.hasHandler = true
        · rw [if_pos hh] at h2
          exact clearSampler_not_detach i h2
        · rw [if_neg hh] at h2
          cases h2
  · intro hi
    left
    rw [if_pos hi]
    exact List.mem_singleton_self _

/-- Witness for C8 at a concrete input. -/
theorem C8_destroy_frame_and_flag_witness :
    step storageCfg noDom freshState Event.forceReveal
      = Except.ok ({ freshState with isDisplayed := true },
                   revealSideEffects storageCfg noDom freshState)
    ∧ storeTrue "vdc" = some "true"
    ∧ (destroy sampleState).1.isDisplayed = sampleState.isDisplayed
    ∧ (Effect.detachTry DetachShape.off ∈ (destroy sampleState).2
        ↔ detachInvoked plainInst = some DetachShape.off)
    ∧ applyStorage (revealSideEffects storageCfg noDom freshState) storeTrue "vdc"
        = some "true" := by
  refine ⟨rfl, rfl, ?_, ?_, ?_⟩
  · exact (C8_destroy_frame_and_flag storageCfg noDom sampleState freshState
      Event.forceReveal { freshState with isDisplayed := true }
      (revealSideEffects storageCfg noDom freshState) storeTrue "vdc" rfl rfl).1
  · exact (C8_destroy_frame_and_flag storageCfg noDom sampleState freshState
      Event.forceReveal { freshState with isDisplayed := true }
      (revealSideEffects storageCfg noDom freshState) storeTrue "vdc"
      rfl rfl).2.2.2.2.2.2.1 plainInst rfl rfl DetachShape.off
  · exact (C8_destroy_frame_and_flag storageCfg noDom sampleState freshState
      Event.forceReveal { freshState with isDisplayed := true }
      (revealSideEffects storageCfg noDom freshState) storeTrue "vdc"
      rfl rfl).2.2.2.2.2.2.2.2.2

/-- C9: the first post-reveal scroll is scheduled at 500ms against the
literal fixed id "kits" whatever the configuration; it is the only
scheduled scroll in the batch; running it with no "kits" element silently
does nothing; and the configurable scrollToId scroll is a separate,
immediate second scroll performed exactly when the (truthy) scrollToId
differs from the content selector with its first '#' removed and its
element exists. -/
theorem C9_fixed_kits_scroll (cfg : Config) (dom : Dom) (s : CState)
    (hd : s.isDisplayed = false) :
    Effect.schedScroll 500 "kits" ∈ (revealContent cfg dom s).2
    ∧ (∀ ms id, Effect.schedScroll ms id ∈ (revealContent cfg dom s).2 →
        ms = 500 ∧ id = "kits")
    ∧ (dom.hasId "kits" = false → kitsScrollRun dom = [])
    ∧ (∀ id, cfg.scrollToId = some id →
        (Effect.scrollTo id ∈ (revealContent cfg dom s).2
          ↔ (id ≠ "" ∧ id ≠ String.mk (stripFirstHash cfg.delayedContentSelector.data)
              ∧ dom.hasId id = true))) := by
  rw [revealContent_on_fresh cfg dom s hd]
  refine ⟨?_, ?_, ?_, ?_⟩
  · simp [revealSideEffects]
  · intro ms id hmem
    have h2 := List.countP_eq_zero.mp (revealSideEffects_alienSched cfg dom s) _ hmem
    simpa [isAlienSched] using h2
  · intro hk
    unfold kitsScrollRun
    rw [if_neg (by simp [hk])]
  · intro id hsc
    by_cases hc : (id ≠ "" ∧ id ≠ String.mk (stripFirstHash cfg.delayedContentSelector.data)
        ∧ dom.hasId id = true)
    · refine ⟨fun _ => hc, fun _ => ?_⟩
      obtain ⟨hc1, hc2, hc3⟩ := hc
      simp [revealSideEffects, hsc, hc1, hc2, hc3]
    · constructor
      · intro hmem
        exfalso
        have hz := revealSideEffects_scroll_count cfg dom s id hsc
        rw [if_neg hc] at hz
        have h3 := List.countP_eq_zero.mp hz _ hmem
        simp [isScrollEffect] at h3
      · intro hmem
        exact absurd hmem hc

/-- Witness for C9 at a concrete input. -/
theorem C9_fixed_kits_scroll_witness :
    freshState.isDisplayed = false
    ∧ Effect.schedScroll 500 "kits" ∈ (revealContent scrollCfg targetDom freshState).2
    ∧ Effect.scrollTo "target" ∈ (revealContent scrollCfg targetDom freshState).2 := by
  refine ⟨rfl, ?_, ?_⟩
  · exact (C9_fixed_kits_scroll scrollCfg targetDom freshState rfl).1
  · exact ((C9_fixed_kits_scroll scrollCfg targetDom freshState rfl).2.2.2 "target"
      rfl).mpr (by decide)

/-- C10: initVideoDelayControl hands a controller back to the caller only
when the document is past the loading state; while loading it returns
undefined and only queues the deferred construction, so the caller never
obtains a handle to a controller created via the deferred path. -/
theorem C10_init_defers_handle (rs : ReadyState) (cfg : Config)
    (storage : String → Option String) (dom : Dom) (inst? : Option VideoInstance) :
    ((initVideoDelayControl rs cfg storage dom inst?).1 = none ↔ rs = ReadyState.loading)
    ∧ ((initVideoDelayControl rs cfg storage dom inst?).2 = some cfg
        ↔ rs = ReadyState.loading)
    ∧ (rs = ReadyState.loading →
        initVideoDelayControl rs cfg storage dom inst? = (none, some cfg))
    ∧ (rs ≠ ReadyState.loading →
        initVideoDelayControl rs cfg storage dom inst?
          = (some (construct cfg storage dom inst?), none)) := by
  cases rs <;> simp [initVideoDelayControl]

/-- Witness for C10 at concrete inputs. -/
theorem C10_init_defers_handle_witness :
    (initVideoDelayControl ReadyState.loading DEFAULT_CONFIG storeTrue noDom none).1 = none
    ∧ (initVideoDelayControl ReadyState.complete DEFAULT_CONFIG storeTrue noDom none)
        = (some (construct DEFAULT_CONFIG storeTrue noDom none), none) := by
  constructor
  · exact (C10_init_defers_handle ReadyState.loading DEFAULT_CONFIG storeTrue noDom
      none).1.mpr rfl
  · exact (C10_init_defers_handle ReadyState.complete DEFAULT_CONFIG storeTrue noDom
      none).2.2.2 (by decide)

end VideoDelay
